import Mathlib

/-!
# Policy and custody layer of a Solana agentic wallet, formalised

A shallow embedding of the secure-wallet core: the `RateLimiter` and
`VolumeTracker` state, `ExecutionEngine.validatePermissions` and
`ExecutionEngine.execute` (part_002), the facade
`SecureAgenticWallet.canExecute` and `SecureAgenticWallet.create`
(part_001), and `SecureKeyStore` (src/security/SecureKeyStore.ts).

Modelling conventions:
* SOL amounts (TypeScript `number`) are rationals (`Rat`).
* Timestamps (`Date.now()`, milliseconds) are naturals (`Nat`); each
  engine call receives the current time `now` as an explicit argument.
* A JavaScript `Map<string, V>` is an association list
  `List (String × V)` with `List.lookup` and an update `mapSet` that
  replaces the binding in place, like `Map.set`.
* The node filesystem under the store path is an association list from
  file name to parsed record; byte buffers (`Uint8Array`/`Buffer`) are
  `List (Fin 256)`; hex encoding is a bijection on byte strings and is
  elided.
* `async` calls into the network/crypto collaborators (`Connection`,
  `retrieveKey` from inside the engine) are given to `execute` as an
  explicit environment of outcomes, one per awaited step.
-/

namespace SolWallet

/-- `ActionType` from part_002. -/
inductive ActionType
  | transfer_sol
  | transfer_token
  | create_token_account
  | close_account
  | custom
deriving DecidableEq, Repr

/-- `PermissionLevel` from part_002 (the numeric values 0..4 are irrelevant
to the checks, which only compare against `READ_ONLY`). -/
inductive PermissionLevel
  | READ_ONLY
  | LIMITED
  | STANDARD
  | ELEVATED
  | ADMIN
deriving DecidableEq, Repr

/-- `AgentPermissions` from part_002. -/
structure AgentPermissions where
  level : PermissionLevel
  maxTransactionAmount : Rat
  maxDailyVolume : Rat
  allowedActions : List ActionType
  allowedDestinations : Option (List String)
  rateLimit : Nat
  requiresApproval : Option Rat
deriving DecidableEq, Repr

/-- `ActionParams` from part_002, restricted to the fields the policy layer
reads (`action`, `destination`, `amount`); the token / instruction fields
only feed `buildTransaction`, whose outcome is part of the environment. -/
structure ActionParams where
  action : ActionType
  destination : Option String
  amount : Option Rat
deriving DecidableEq, Repr

/-- `ExecutionResult` from part_002 (the `fee` and `confirmations` fields
are never set by `createResult` and are omitted). -/
structure ExecutionResult where
  success : Bool
  signature : Option String
  error : Option String
  action : ActionType
  amount : Option Rat
  timestamp : Nat
deriving DecidableEq, Repr

/-- `Map.set`: replace the binding for `k` in place, or append it. -/
def mapSet {α : Type} (m : List (String × α)) (k : String) (v : α) :
    List (String × α) :=
  match m with
  | [] => [(k, v)]
  | (k', v') :: rest =>
      if k' = k then (k, v) :: rest else (k', v') :: mapSet rest k v

/-! ## RateLimiter (part_002, lines 80-104) -/

namespace RateLimiter

/-- The sliding window: `const windowMs = 60000`. -/
def windowMs : Nat := 60000

/-- `RateLimiter.canExecute`: true iff strictly fewer than `limit` recorded
timestamps fall within the trailing 60 s of `now`.  The source computes
`now - t < windowMs` on JS numbers; recorded timestamps never exceed the
current time in the sequential model, and for `t ≤ now` truncated `Nat`
subtraction agrees with JS subtraction (for `t > now` both sides accept). -/
def canExecute (transactions : List (String × List Nat)) (agentId : String)
    (limit : Nat) (now : Nat) : Bool :=
  let txTimes := (transactions.lookup agentId).getD []
  let recentTxs := txTimes.filter (fun t => now - t < windowMs)
  recentTxs.length < limit

/-- `RateLimiter.recordTransaction`: push `now`, keep only the last 100. -/
def recordTransaction (transactions : List (String × List Nat))
    (agentId : String) (now : Nat) : List (String × List Nat) :=
  let txTimes := (transactions.lookup agentId).getD []
  let txTimes := txTimes ++ [now]
  let txTimes := if txTimes.length > 100 then txTimes.drop 1 else txTimes
  mapSet transactions agentId txTimes

end RateLimiter

/-! ## VolumeTracker (part_002, lines 109-133)

The source keys each record by the string
`new Date().toISOString().split('T')[0]`, i.e. the UTC calendar date of
the current instant.  Two instants have equal date strings iff they have
equal UTC day numbers, so the date is modelled as `now / 86400000`. -/

namespace VolumeTracker

/-- One entry of `dailyVolume`: `{ amount: number; date: string }`, the
date carried as a UTC day number. -/
structure VolumeRecord where
  amount : Rat
  date : Nat
deriving DecidableEq, Repr

/-- Milliseconds per day. -/
def msPerDay : Nat := 86400000

/-- Model of `new Date(now).toISOString().split('T')[0]`. -/
def utcDay (now : Nat) : Nat := now / msPerDay

/-- `VolumeTracker.getVolume`: 0 when there is no record or its date is
not today, otherwise the accumulated amount. -/
def getVolume (dailyVolume : List (String × VolumeRecord)) (agentId : String)
    (now : Nat) : Rat :=
  match dailyVolume.lookup agentId with
  | none => 0
  | some record => if record.date ≠ utcDay now then 0 else record.amount

/-- `VolumeTracker.addVolume`: start a fresh record `{amount, today}` when
none exists or the stored date is not today, otherwise add in place. -/
def addVolume (dailyVolume : List (String × VolumeRecord)) (agentId : String)
    (amount : Rat) (now : Nat) : List (String × VolumeRecord) :=
  match dailyVolume.lookup agentId with
  | none => mapSet dailyVolume agentId ⟨amount, utcDay now⟩
  | some record =>
      if record.date ≠ utcDay now then
        mapSet dailyVolume agentId ⟨amount, utcDay now⟩
      else
        mapSet dailyVolume agentId ⟨record.amount + amount, record.date⟩

end VolumeTracker

/-! ## ExecutionEngine (part_002, lines 146-455) -/

/-- The `{ allowed: boolean; reason?: string }` result of the policy checks. -/
structure PermCheck where
  allowed : Bool
  reason : Option String
deriving DecidableEq, Repr

/-- The string name of an action, as interpolated into error messages. -/
def actionName : ActionType → String
  | ActionType.transfer_sol => "transfer_sol"
  | ActionType.transfer_token => "transfer_token"
  | ActionType.create_token_account => "create_token_account"
  | ActionType.close_account => "close_account"
  | ActionType.custom => "custom"

/-- The engine's mutable fields: the `permissions` map, the rate limiter's
`transactions` map, the volume tracker's `dailyVolume` map and the
`executionLog`. -/
structure EngineState where
  permissions : List (String × AgentPermissions)
  rateTransactions : List (String × List Nat)
  dailyVolume : List (String × VolumeTracker.VolumeRecord)
  executionLog : List ExecutionResult
deriving DecidableEq, Repr

/-- Outcomes of the awaited collaborator calls inside one `execute` run:
`keyStore.retrieveKey` (step 4), keypair creation plus `buildTransaction`
plus `getLatestBlockhash` (steps 5-7), signing plus `sendRawTransaction`
(steps 8-9, yielding the signature string), and `confirmTransaction`
(step 10).  `Except.error e` models the call throwing `Error(e)`, which
the outer catch of `execute` turns into a failed result. -/
structure LedgerEnv where
  retrieveOutcome : Except String (List (Fin 256))
  buildOutcome : Except String Unit
  submitOutcome : Except String String
  confirmOutcome : Except String Unit
deriving Repr

/-- What one `execute` call produces: the returned result, the engine state
after the call, and whether `keyStore.retrieveKey` was invoked. -/
structure ExecOutcome where
  result : ExecutionResult
  state : EngineState
  retrieveInvoked : Bool
deriving DecidableEq, Repr

/-- `ExecutionEngine.createResult` (part_002, lines 400-414). -/
def createResult (success : Bool) (action : ActionType) (error : Option String)
    (signature : Option String) (amount : Option Rat) (now : Nat) :
    ExecutionResult :=
  ⟨success, signature, error, action, amount, now⟩

/-- `ExecutionEngine.validatePermissions` (part_002, lines 275-319).  The
`requiresApproval` branch only logs and never rejects.  The destination
check runs only when `allowedDestinations` is set and `destination` is a
truthy (non-empty) string, mirroring
`if (perms.allowedDestinations && params.destination)`. -/
def validatePermissions (permissions : List (String × AgentPermissions))
    (agentId : String) (params : ActionParams) : PermCheck :=
  match permissions.lookup agentId with
  | none => ⟨false, some "Agent not registered"⟩
  | some perms =>
      if perms.level = PermissionLevel.READ_ONLY then
        ⟨false, some "Read-only agent cannot execute transactions"⟩
      else if params.action ∉ perms.allowedActions then
        ⟨false, some ("Action not allowed: " ++ actionName params.action)⟩
      else
        let amount := params.amount.getD 0
        if amount > perms.maxTransactionAmount then
          ⟨false, some ("Amount " ++ toString amount ++ " exceeds max " ++
            toString perms.maxTransactionAmount ++ " SOL")⟩
        else
          match perms.allowedDestinations, params.destination with
          | some dests, some dest =>
              if dest = "" then ⟨true, none⟩
              else if dest ∉ dests then
                ⟨false, some "Destination not in whitelist"⟩
              else ⟨true, none⟩
          | _, _ => ⟨true, none⟩

/-- `ExecutionEngine.getDailyVolume` (part_002, lines 441-443). -/
def getDailyVolume (st : EngineState) (agentId : String) (now : Nat) : Rat :=
  VolumeTracker.getVolume st.dailyVolume agentId now

/-- `ExecutionEngine.getRemainingAllowance` (part_002, lines 448-454). -/
def getRemainingAllowance (st : EngineState) (agentId : String) (now : Nat) :
    Rat :=
  match st.permissions.lookup agentId with
  | none => 0
  | some perms =>
      max 0 (perms.maxDailyVolume -
        VolumeTracker.getVolume st.dailyVolume agentId now)

/-- `ExecutionEngine.execute` (part_002, lines 176-270).  The match on
`st.permissions.lookup agentId` mirrors `this.permissions.get(agentId)!`;
its `none` arm is unreachable because a passing `validatePermissions`
implies the agent is registered (`validatePermissions_allowed_registered`
below).  Permission, rate and volume rejections return without touching
the log (source lines 187, 193, 200); a thrown collaborator error is
caught and its result pushed to the log (lines 265-268); a confirmed
submission records quota and pushes its result (lines 242-258). -/
def execute (st : EngineState) (agentId : String) (params : ActionParams)
    (now : Nat) (env : LedgerEnv) : ExecOutcome :=
  let permCheck := validatePermissions st.permissions agentId params
  if permCheck.allowed = false then
    ⟨createResult false params.action permCheck.reason none none now, st, false⟩
  else
    match st.permissions.lookup agentId with
    | none =>
        ⟨createResult false params.action (some "Agent not registered")
          none none now, st, false⟩
    | some perms =>
        if RateLimiter.canExecute st.rateTransactions agentId perms.rateLimit
            now = false then
          ⟨createResult false params.action (some "Rate limit exceeded")
            none none now, st, false⟩
        else
          let currentVolume := VolumeTracker.getVolume st.dailyVolume agentId now
          let txAmount := params.amount.getD 0
          if currentVolume + txAmount > perms.maxDailyVolume then
            ⟨createResult false params.action
              (some ("Daily volume limit exceeded (" ++ toString currentVolume ++
                "/" ++ toString perms.maxDailyVolume ++ " SOL)"))
              none none now, st, false⟩
          else
            match env.retrieveOutcome with
            | Except.error e =>
                let r := createResult false params.action (some e) none none now
                ⟨r, { st with executionLog := st.executionLog ++ [r] }, true⟩
            | Except.ok _secret =>
                match env.buildOutcome with
                | Except.error e =>
                    let r := createResult false params.action (some e) none none now
                    ⟨r, { st with executionLog := st.executionLog ++ [r] }, true⟩
                | Except.ok _ =>
                    match env.submitOutcome with
                    | Except.error e =>
                        let r := createResult false params.action (some e)
                          none none now
                        ⟨r, { st with executionLog := st.executionLog ++ [r] },
                          true⟩
                    | Except.ok signature =>
                        match env.confirmOutcome with
                        | Except.error e =>
                            let r := createResult false params.action (some e)
                              none none now
                            ⟨r, { st with
                                executionLog := st.executionLog ++ [r] }, true⟩
                        | Except.ok _ =>
                            let newRate := RateLimiter.recordTransaction
                              st.rateTransactions agentId now
                            let newVolume := VolumeTracker.addVolume
                              st.dailyVolume agentId txAmount now
                            let r := createResult true params.action none
                              (some signature) (some txAmount) now
                            ⟨r, { st with
                                rateTransactions := newRate,
                                dailyVolume := newVolume,
                                executionLog := st.executionLog ++ [r] }, true⟩

/-! ## SecureAgenticWallet facade (part_001) -/

namespace SecureAgenticWallet

/-- `SecureAgenticWallet.canExecute` (part_001, lines 239-273).
`configPerms` is `this.config.permissions`; the remaining-allowance check
reads the engine state `st` through `getRemainingAllowance`. -/
def canExecute (configPerms : AgentPermissions) (st : EngineState)
    (agentId : String) (params : ActionParams) (now : Nat) : PermCheck :=
  if params.action ∉ configPerms.allowedActions then
    ⟨false, some ("Action not allowed: " ++ actionName params.action)⟩
  else
    let amount := params.amount.getD 0
    if amount > configPerms.maxTransactionAmount then
      ⟨false, some ("Amount " ++ toString amount ++ " exceeds max " ++
        toString configPerms.maxTransactionAmount ++ " SOL")⟩
    else
      let remaining := getRemainingAllowance st agentId now
      if amount > remaining then
        ⟨false, some ("Amount " ++ toString amount ++
          " exceeds remaining allowance " ++ toString remaining ++ " SOL")⟩
      else
        match configPerms.allowedDestinations, params.destination with
        | some dests, some dest =>
            if dest = "" then ⟨true, none⟩
            else if dest ∉ dests then ⟨false, some "Destination not whitelisted"⟩
            else ⟨true, none⟩
        | _, _ => ⟨true, none⟩

end SecureAgenticWallet

/-! ## SecureKeyStore (src/security/SecureKeyStore.ts)

Byte buffers are `List Byte` with `Byte := Fin 256`; the hex round trip
through the JSON document (`toString('hex')` / `Buffer.from(_, 'hex')`)
is a bijection on byte strings and is elided.  PBKDF2 and AES-256-GCM
live in node's `crypto` library, outside this repository; they are
modelled by executable stand-ins that keep exactly the interface contract
the store relies on: key derivation is a deterministic function of
password and salt, encryption is inverted by decryption under the same
key and IV, and decryption first checks a recomputable authentication
tag. -/

namespace SecureKeyStore

/-- A byte of a `Buffer`/`Uint8Array`. -/
abbrev Byte := Fin 256

/-- The parsed `EncryptedKeyData` document (lines 8-18). -/
structure EncryptedKeyData where
  version : Nat
  algorithm : String
  iv : List Byte
  salt : List Byte
  authTag : List Byte
  encryptedKey : List Byte
  publicKey : String
  createdAt : Nat
  metadata : Option (List (String × String))
deriving DecidableEq, Repr

/-- The store directory: file name ↦ parsed record. -/
abbrev Files := List (String × EncryptedKeyData)

/-- One character step of `walletId.replace(/[^a-zA-Z0-9-_]/g, '_')`
(`Char.isAlpha`/`Char.isDigit` are exactly the ASCII ranges of the
regex). -/
def sanitizeChar (c : Char) : Char :=
  if c.isAlpha ∨ c.isDigit ∨ c = '-' ∨ c = '_' then c else '_'

/-- The sanitized wallet id (line 287): `sanitizeChar` applied to each
character of the id. -/
def sanitizeId (walletId : String) : String :=
  String.mk (walletId.data.map sanitizeChar)

/-- `SecureKeyStore.getKeyFilePath` (lines 285-289), relative to the store
directory. -/
def getKeyFilePath (walletId : String) : String :=
  sanitizeId walletId ++ ".encrypted.json"

/-- Sum of a byte list, the mixing primitive of the stand-in primitives. -/
def byteSum (l : List Byte) : Byte := l.foldl (· + ·) 0

/-- Model of `crypto.pbkdf2Sync(password, salt, 100000, 32, 'sha256')`
(`deriveKey`, lines 54-62): a deterministic function of the password and
the salt.  The concrete mixing is a stand-in for PBKDF2; the development
relies only on the result being a pure function of `(password, salt)`. -/
def deriveKey (password : String) (salt : List Byte) : List Byte :=
  password.toList.map (fun c => ((c.toNat : Nat) : Byte)) ++ salt

/-- Keystream byte at position `i` of the stand-in stream cipher. -/
def mixByte (key iv : List Byte) (i : Nat) : Byte :=
  byteSum key + byteSum iv + (i : Byte)

/-- The first `n` keystream bytes for a key and IV. -/
def keystream (key iv : List Byte) (n : Nat) : List Byte :=
  (List.range n).map (mixByte key iv)

/-- The authentication tag of the stand-in AES-256-GCM: a deterministic
function of key, IV and ciphertext, recomputed and compared on
decryption. -/
def gcmTag (key iv ct : List Byte) : List Byte :=
  [byteSum ct + byteSum key, byteSum iv + (ct.length : Byte)]

/-- Model of AES-256-GCM encryption (`createCipheriv` / `update` /
`final` / `getAuthTag`): ciphertext and tag. -/
def gcmEncrypt (key iv pt : List Byte) : List Byte × List Byte :=
  let ct := List.zipWith (· + ·) pt (keystream key iv pt.length)
  (ct, gcmTag key iv ct)

/-- Model of AES-256-GCM decryption (`createDecipheriv` / `setAuthTag` /
`update` / `final`): verifies the tag, then inverts the stream; a tag
mismatch throws, which `retrieveKey` catches and makes uniform. -/
def gcmDecrypt (key iv ct tag : List Byte) : Except String (List Byte) :=
  if gcmTag key iv ct = tag then
    Except.ok (List.zipWith (· - ·) ct (keystream key iv ct.length))
  else Except.error "auth tag mismatch"

/-- What `storeKey` leaves behind: the directory after the write and the
final contents of the three byte buffers involved — the caller-supplied
`secretKey` array, the internal copy `secretKeyBuffer =
Buffer.from(secretKey)`, and the `derivedKey`. -/
structure StoreKeyOutcome where
  files : Files
  callerBufferAfter : List Byte
  secretKeyBufferAfter : List Byte
  derivedKeyAfter : List Byte
deriving DecidableEq, Repr

/-- `SecureKeyStore.storeKey` (lines 67-120).  `salt` and `iv` stand for
the two `crypto.randomBytes` draws and `now` for `Date.now()`.
`Buffer.from(secretKey)` copies the bytes, so the `fill(0)` calls on the
copy and on the derived key (lines 116-117) leave the caller's array
untouched; there is no existence check, and `writeFileSync` (line 111)
overwrites any record already stored under the same file name. -/
def storeKey (files : Files) (walletId : String) (secretKey : List Byte)
    (publicKey : String) (password : String)
    (metadata : Option (List (String × String))) (salt iv : List Byte)
    (now : Nat) : StoreKeyOutcome :=
  let derivedKey := deriveKey password salt
  let secretKeyBuffer := secretKey
  let (encrypted, authTag) := gcmEncrypt derivedKey iv secretKeyBuffer
  let data : EncryptedKeyData :=
    ⟨1, "aes-256-gcm", iv, salt, authTag, encrypted, publicKey, now, metadata⟩
  ⟨mapSet files (getKeyFilePath walletId) data,
    secretKey,
    List.replicate secretKeyBuffer.length 0,
    List.replicate derivedKey.length 0⟩

/-- The `{secretKey, publicKey}` part of the handle `retrieveKey` returns
(the `cleanup` closure zeroes `secretKey` when called and carries no other
state). -/
structure KeyHandle where
  secretKey : List Byte
  publicKey : String
deriving DecidableEq, Repr

/-- `SecureKeyStore.retrieveKey` (lines 126-186).  Any decryption fault —
wrong password or tampered record alike — is caught and re-thrown with
the uniform message of line 181; the derived key is zeroed in the
`finally` on every exit, which the value-level model does not need to
track. -/
def retrieveKey (files : Files) (walletId : String) (password : String) :
    Except String KeyHandle :=
  match files.lookup (getKeyFilePath walletId) with
  | none => Except.error ("Wallet not found: " ++ walletId)
  | some data =>
      if data.version ≠ 1 then
        Except.error ("Unsupported keystore version: " ++ toString data.version)
      else
        let derivedKey := deriveKey password data.salt
        match gcmDecrypt derivedKey data.iv data.encryptedKey data.authTag with
        | Except.ok decrypted => Except.ok ⟨decrypted, data.publicKey⟩
        | Except.error _ => Except.error "Invalid password or corrupted keystore"

/-- `SecureKeyStore.hasWallet` (lines 191-193). -/
def hasWallet (files : Files) (walletId : String) : Bool :=
  (files.lookup (getKeyFilePath walletId)).isSome

/-- The result type of `getWalletInfo`. -/
structure WalletInfo where
  publicKey : String
  createdAt : Nat
  metadata : Option (List (String × String))
deriving DecidableEq, Repr

/-- `SecureKeyStore.getWalletInfo` (lines 208-228). -/
def getWalletInfo (files : Files) (walletId : String) : Option WalletInfo :=
  match files.lookup (getKeyFilePath walletId) with
  | none => none
  | some data => some ⟨data.publicKey, data.createdAt, data.metadata⟩

/-- `SecureKeyStore.deleteWallet` (lines 233-250): `false` when the file
is absent; otherwise overwrite-with-random then unlink, modelled as
removing the binding. -/
def deleteWallet (files : Files) (walletId : String) : Bool × Files :=
  match files.lookup (getKeyFilePath walletId) with
  | none => (false, files)
  | some _ =>
      (true, files.filter (fun kv => kv.1 != getKeyFilePath walletId))

end SecureKeyStore

/-- The custody step of `SecureAgenticWallet.create` (part_001, lines
59-101): fail when the wallet already exists (line 68), otherwise
generate a keypair and store it encrypted.  `secretKey` and `publicKey`
stand for the `web3.Keypair.generate()` draw, `salt` and `iv` for the
random draws inside `storeKey`. -/
def SecureAgenticWallet.create (files : SecureKeyStore.Files)
    (agentId : String) (name : String) (secretKey : List SecureKeyStore.Byte)
    (publicKey : String) (password : String)
    (salt iv : List SecureKeyStore.Byte) (now : Nat) :
    Except String SecureKeyStore.Files :=
  if SecureKeyStore.hasWallet files agentId then
    Except.error ("Wallet already exists: " ++ agentId)
  else
    Except.ok (SecureKeyStore.storeKey files agentId secretKey publicKey
      password (some [("name", name)]) salt iv now).files

/-! ## Concrete instances used by the witnesses and counterexamples -/

/-- A collaborator environment in which every awaited step succeeds. -/
def okEnv : LedgerEnv :=
  ⟨Except.ok [], Except.ok (), Except.ok "sig", Except.ok ()⟩

/-- The registered profile of the C1 witness: per-transaction cap 1 SOL. -/
def c1Perms : AgentPermissions :=
  ⟨PermissionLevel.STANDARD, 1, 10, [ActionType.transfer_sol], none, 10, none⟩

/-- Engine state with the single registered agent of the C1 witness. -/
def c1State : EngineState := ⟨[("agent", c1Perms)], [], [], []⟩

/-- A transfer of 5 SOL, above the cap of 1 SOL. -/
def c1Params : ActionParams := ⟨ActionType.transfer_sol, none, some 5⟩

/-- Engine state of the C2 witness: one agent, ample caps. -/
def c2State : EngineState := ⟨[("agent", c1Perms)], [], [], []⟩

/-- A transfer within every limit. -/
def c2Params : ActionParams := ⟨ActionType.transfer_sol, none, some 1⟩

/-- The C9 witness profile: cap 0 and daily volume cap 0. -/
def c9Perms : AgentPermissions :=
  ⟨PermissionLevel.STANDARD, 0, 0, [ActionType.transfer_sol], none, 10, none⟩

/-- Engine state of the C9 witness. -/
def c9State : EngineState := ⟨[("agent", c9Perms)], [], [], []⟩

/-- A transfer request with no amount field at all. -/
def c9Params : ActionParams := ⟨ActionType.transfer_sol, none, none⟩

/-- The read-only profile of the C3 counterexample. -/
def c3Perms : AgentPermissions :=
  ⟨PermissionLevel.READ_ONLY, 1, 1, [ActionType.transfer_sol], none, 10,
    none⟩

/-- Engine state with the read-only agent registered under the same
profile as the facade config (as `SecureAgenticWallet.create` does). -/
def c3State : EngineState := ⟨[("agent", c3Perms)], [], [], []⟩

/-- A whitelisted action with no amount. -/
def c3Params : ActionParams := ⟨ActionType.transfer_sol, none, none⟩

/-- An action outside the C3 profile whitelist. -/
def c3wParams : ActionParams := ⟨ActionType.custom, none, none⟩

/-- The C4 profile: cap 10 SOL, daily volume cap 1 SOL, allowlist
`[good]`. -/
def c4Perms : AgentPermissions :=
  ⟨PermissionLevel.STANDARD, 10, 1, [ActionType.transfer_sol], some ["good"],
    10, none⟩

/-- Engine state with the C4 agent registered and empty trackers. -/
def c4State : EngineState := ⟨[("agent", c4Perms)], [], [], []⟩

/-- A 5 SOL transfer to a destination outside the allowlist. -/
def c4Params : ActionParams := ⟨ActionType.transfer_sol, some "bad", some 5⟩

/-- The record already present in the C6 counterexample store. -/
def c6Existing : SecureKeyStore.EncryptedKeyData :=
  ⟨1, "aes-256-gcm", [], [], [], [], "pk1", 0, none⟩

/-- A store directory already holding the wallet `agent`. -/
def c6Files : SecureKeyStore.Files := [("agent.encrypted.json", c6Existing)]

/-! ## Map lemmas -/

theorem lookup_mapSet_self {α : Type} (m : List (String × α)) (k : String)
    (v : α) : (mapSet m k v).lookup k = some v := by
  induction m with
  | nil => simp [mapSet, List.lookup]
  | cons hd tl ih =>
      obtain ⟨k', v'⟩ := hd
      by_cases h : k' = k
      · simp [mapSet, h, List.lookup]
      · simp only [mapSet, if_neg h, List.lookup]
        have : (k == k') = false := by
          simp [beq_iff_eq]; exact fun hh => h hh.symm
        simp [this, ih]

theorem lookup_mapSet_ne {α : Type} (m : List (String × α)) (k k' : String)
    (v : α) (h : k ≠ k') : (mapSet m k v).lookup k' = m.lookup k' := by
  have hk : (k' == k) = false := by
    rw [beq_eq_false_iff_ne]; exact Ne.symm h
  induction m with
  | nil => simp [mapSet, List.lookup, hk]
  | cons hd tl ih =>
      obtain ⟨k₀, v₀⟩ := hd
      by_cases h₀ : k₀ = k
      · simp [mapSet, h₀, List.lookup, hk]
      · simp only [mapSet, if_neg h₀, List.lookup]
        cases hb : (k' == k₀) <;> simp [ih]

/-! ## Cipher model lemmas -/

namespace SecureKeyStore

theorem keystream_length (key iv : List Byte) (n : Nat) :
    (keystream key iv n).length = n := by simp [keystream]

theorem zipWith_sub_add (pt ks : List Byte) (h : ks.length = pt.length) :
    List.zipWith (· - ·) (List.zipWith (· + ·) pt ks) ks = pt := by
  induction pt generalizing ks with
  | nil => simp
  | cons a tl ih =>
      cases ks with
      | nil => simp at h
      | cons b ksl =>
          simp only [List.zipWith]
          have hlen : ksl.length = tl.length := by simpa using h
          rw [ih ksl hlen, add_sub_cancel_right]

/-- Decryption under the same key and IV inverts encryption, and the
recomputed tag matches the one produced at encryption time. -/
theorem gcmDecrypt_gcmEncrypt (key iv pt : List Byte) :
    gcmDecrypt key iv (gcmEncrypt key iv pt).1 (gcmEncrypt key iv pt).2 =
      Except.ok pt := by
  have hct : (List.zipWith (· + ·) pt (keystream key iv pt.length)).length =
      pt.length := by
    simp [keystream_length]
  simp only [gcmEncrypt, gcmDecrypt, if_pos rfl, hct]
  exact congrArg Except.ok
    (zipWith_sub_add pt _ (keystream_length key iv pt.length))

/-- Retrieval with the password used at storage succeeds on the record
just written and returns the stored bytes (no presence hypothesis:
`storeKey` writes unconditionally). -/
theorem retrieve_after_store (files : Files)
    (walletId publicKey password : String) (secretKey salt iv : List Byte)
    (metadata : Option (List (String × String))) (now : Nat) :
    retrieveKey
        (storeKey files walletId secretKey publicKey password metadata salt
          iv now).files walletId password =
      Except.ok ⟨secretKey, publicKey⟩ := by
  unfold storeKey retrieveKey
  simp only [gcmEncrypt]
  simp only [lookup_mapSet_self]
  have hdec := gcmDecrypt_gcmEncrypt (deriveKey password salt) iv secretKey
  simp only [gcmEncrypt] at hdec
  simp [hdec]

end SecureKeyStore

/-! ## Engine lemmas -/

/-- A passing `validatePermissions` implies the agent is registered, which
justifies the non-null assertion `this.permissions.get(agentId)!` in
`execute`. -/
theorem validatePermissions_allowed_registered
    (permissions : List (String × AgentPermissions)) (agentId : String)
    (params : ActionParams)
    (h : (validatePermissions permissions agentId params).allowed = true) :
    ∃ perms, permissions.lookup agentId = some perms := by
  unfold validatePermissions at h
  cases hl : permissions.lookup agentId with
  | none => rw [hl] at h; simp at h
  | some p => exact ⟨p, rfl⟩

/-- An amount above the registered per-transaction cap always fails
validation (at the cap check, or at an earlier check). -/
theorem validatePermissions_amount_cap
    (permissions : List (String × AgentPermissions)) (agentId : String)
    (params : ActionParams) (perms : AgentPermissions)
    (hreg : permissions.lookup agentId = some perms)
    (hamt : params.amount.getD 0 > perms.maxTransactionAmount) :
    (validatePermissions permissions agentId params).allowed = false := by
  simp only [validatePermissions, hreg]
  by_cases h1 : perms.level = PermissionLevel.READ_ONLY
  · simp [h1]
  · rw [if_neg h1]
    by_cases h2 : params.action ∉ perms.allowedActions
    · simp [h2]
    · rw [if_neg h2, if_pos hamt]

/-- An action outside the whitelist always fails validation. -/
theorem validatePermissions_action
    (permissions : List (String × AgentPermissions)) (agentId : String)
    (params : ActionParams) (perms : AgentPermissions)
    (hreg : permissions.lookup agentId = some perms)
    (haction : params.action ∉ perms.allowedActions) :
    (validatePermissions permissions agentId params).allowed = false := by
  simp only [validatePermissions, hreg]
  by_cases h1 : perms.level = PermissionLevel.READ_ONLY
  · simp [h1]
  · rw [if_neg h1, if_pos haction]

/-- When the earlier checks pass, a configured allowlist together with a
provided, non-empty destination outside it makes validation fail with the
destination reason. -/
theorem validatePermissions_destination
    (permissions : List (String × AgentPermissions)) (agentId : String)
    (params : ActionParams) (perms : AgentPermissions)
    (dests : List String) (dest : String)
    (hreg : permissions.lookup agentId = some perms)
    (hlevel : perms.level ≠ PermissionLevel.READ_ONLY)
    (haction : params.action ∈ perms.allowedActions)
    (hamount : ¬ params.amount.getD 0 > perms.maxTransactionAmount)
    (hdests : perms.allowedDestinations = some dests)
    (hdest : params.destination = some dest)
    (hne : dest ≠ "") (hnotin : dest ∉ dests) :
    validatePermissions permissions agentId params =
      ⟨false, some "Destination not in whitelist"⟩ := by
  simp only [validatePermissions, hreg, hdests, hdest]
  rw [if_neg hlevel, if_neg (not_not_intro haction), if_neg hamount,
    if_neg hne, if_pos hnotin]

/-- A failing `validatePermissions` makes `execute` return a rejected
result carrying the denial reason, without invoking key retrieval and
without changing any engine state. -/
theorem execute_reject_of_invalid
    (st : EngineState) (agentId : String) (params : ActionParams) (now : Nat)
    (env : LedgerEnv)
    (h : (validatePermissions st.permissions agentId params).allowed = false) :
    (execute st agentId params now env).result.success = false ∧
    (execute st agentId params now env).result.error =
      (validatePermissions st.permissions agentId params).reason ∧
    (execute st agentId params now env).retrieveInvoked = false ∧
    (execute st agentId params now env).state = st := by
  unfold execute
  rw [if_pos h]
  exact ⟨rfl, rfl, rfl, rfl⟩

/-! ## Claim C1 -/

/-- C1: whenever permission validation fails — in particular whenever the
requested amount strictly exceeds the registered profile's
`maxTransactionAmount` — `execute` returns a rejected result carrying the
denial reason and never invokes the custody store's key retrieval, so no
decrypted key material is touched on a policy failure. -/
theorem execute_permission_denied_never_touches_keys
    (st : EngineState) (agentId : String) (params : ActionParams) (now : Nat)
    (env : LedgerEnv)
    (h : (validatePermissions st.permissions agentId params).allowed = false ∨
      ∃ perms, st.permissions.lookup agentId = some perms ∧
        params.amount.getD 0 > perms.maxTransactionAmount) :
    (execute st agentId params now env).result.success = false ∧
    (execute st agentId params now env).result.error =
      (validatePermissions st.permissions agentId params).reason ∧
    (execute st agentId params now env).retrieveInvoked = false := by
  have hv : (validatePermissions st.permissions agentId params).allowed =
      false := by
    rcases h with h | ⟨perms, hreg, hamt⟩
    · exact h
    · exact validatePermissions_amount_cap _ _ _ _ hreg hamt
  obtain ⟨h1, h2, h3, _⟩ := execute_reject_of_invalid st agentId params now env hv
  exact ⟨h1, h2, h3⟩

/-- Witness for C1: a request of 5 SOL against a cap of 1 SOL. -/
theorem execute_permission_denied_never_touches_keys_witness :
    (execute c1State "agent" c1Params 0 okEnv).result.success = false ∧
    (execute c1State "agent" c1Params 0 okEnv).result.error =
      (validatePermissions c1State.permissions "agent" c1Params).reason ∧
    (execute c1State "agent" c1Params 0 okEnv).retrieveInvoked = false :=
  execute_permission_denied_never_touches_keys c1State "agent" c1Params 0
    okEnv (Or.inr ⟨c1Perms, by decide, by decide⟩)

/-! ## Claim C2 -/

/-- C2: rate-limiter and volume-tracker state is unchanged by every
`execute` call that does not end in a confirmed success — permission,
rate or volume rejection, failed key retrieval, or a throwing build, sign,
submit or confirm step — and a successful call implies the confirmation
step succeeded and performs exactly the rate tick and the volume addition
for that call. -/
theorem execute_quota_only_after_confirmation
    (st : EngineState) (agentId : String) (params : ActionParams) (now : Nat)
    (env : LedgerEnv) :
    ((execute st agentId params now env).result.success = false →
      (execute st agentId params now env).state.rateTransactions =
          st.rateTransactions ∧
        (execute st agentId params now env).state.dailyVolume =
          st.dailyVolume) ∧
    ((execute st agentId params now env).result.success = true →
      (∃ u, env.confirmOutcome = Except.ok u) ∧
      (execute st agentId params now env).state.rateTransactions =
        RateLimiter.recordTransaction st.rateTransactions agentId now ∧
      (execute st agentId params now env).state.dailyVolume =
        VolumeTracker.addVolume st.dailyVolume agentId (params.amount.getD 0)
          now) := by
  by_cases hv : (validatePermissions st.permissions agentId params).allowed =
      false
  · obtain ⟨h1, _, _, hst⟩ := execute_reject_of_invalid st agentId params now
      env hv
    refine ⟨fun _ => ⟨by rw [hst], by rw [hst]⟩, fun hs => ?_⟩
    rw [hs] at h1
    exact Bool.noConfusion h1
  · cases hl : st.permissions.lookup agentId with
    | none =>
        simp only [execute, hl]
        rw [if_neg hv]
        exact ⟨fun _ => ⟨rfl, rfl⟩, fun hs => Bool.noConfusion hs⟩
    | some perms =>
        simp only [execute, hl]
        rw [if_neg hv]
        by_cases hr : RateLimiter.canExecute st.rateTransactions agentId
            perms.rateLimit now = false
        · rw [if_pos hr]
          exact ⟨fun _ => ⟨rfl, rfl⟩, fun hs => Bool.noConfusion hs⟩
        · rw [if_neg hr]
          by_cases hvv : VolumeTracker.getVolume st.dailyVolume agentId now +
              params.amount.getD 0 > perms.maxDailyVolume
          · rw [if_pos hvv]
            exact ⟨fun _ => ⟨rfl, rfl⟩, fun hs => Bool.noConfusion hs⟩
          · rw [if_neg hvv]
            obtain ⟨ro, bo, so, co⟩ := env
            cases ro with
            | error e => exact ⟨fun _ => ⟨rfl, rfl⟩, fun hs => Bool.noConfusion hs⟩
            | ok sk =>
                cases bo with
                | error e =>
                    exact ⟨fun _ => ⟨rfl, rfl⟩, fun hs => Bool.noConfusion hs⟩
                | ok bv =>
                    cases so with
                    | error e =>
                        exact ⟨fun _ => ⟨rfl, rfl⟩,
                          fun hs => Bool.noConfusion hs⟩
                    | ok sig =>
                        cases co with
                        | error e =>
                            exact ⟨fun _ => ⟨rfl, rfl⟩,
                              fun hs => Bool.noConfusion hs⟩
                        | ok u =>
                            exact ⟨fun hs => Bool.noConfusion hs,
                              fun _ => ⟨⟨u, rfl⟩, rfl, rfl⟩⟩

/-- Witness for C2: a concrete confirmed call performs exactly the rate
tick and the volume addition. -/
theorem execute_quota_only_after_confirmation_witness :
    (∃ u, okEnv.confirmOutcome = Except.ok u) ∧
    (execute c2State "agent" c2Params 7 okEnv).state.rateTransactions =
      RateLimiter.recordTransaction c2State.rateTransactions "agent" 7 ∧
    (execute c2State "agent" c2Params 7 okEnv).state.dailyVolume =
      VolumeTracker.addVolume c2State.dailyVolume "agent"
        (c2Params.amount.getD 0) 7 := by
  refine (execute_quota_only_after_confirmation c2State "agent" c2Params 7
    okEnv).2 ?_
  have hvp : validatePermissions c2State.permissions "agent" c2Params =
      ⟨true, none⟩ := by decide
  have hlook : c2State.permissions.lookup "agent" = some c1Perms := by decide
  simp only [execute, hvp, hlook]
  rw [if_neg (by simp)]
  rw [if_neg (by decide)]
  rw [if_neg (by norm_num [VolumeTracker.getVolume, c2State, c2Params, c1Perms])]
  rfl

/-! ## Claim C9 -/

/-- C9: a request whose `amount` field is absent is treated as amount 0
by both the permission validation and the daily-volume step of `execute`
(`params.amount || 0`), so for a registered, non-read-only identity whose
action is whitelisted — destination and rate checks passing, cap
nonnegative, accumulated volume within the daily cap — the request passes
the per-transaction-cap and daily-volume checks even when
`maxTransactionAmount` is 0 and the remaining daily allowance is 0, and
proceeds to key retrieval. -/
theorem absent_amount_passes_amount_checks
    (st : EngineState) (agentId : String) (params : ActionParams) (now : Nat)
    (env : LedgerEnv) (perms : AgentPermissions)
    (hreg : st.permissions.lookup agentId = some perms)
    (hlevel : perms.level ≠ PermissionLevel.READ_ONLY)
    (haction : params.action ∈ perms.allowedActions)
    (hamt : params.amount = none)
    (hcap : 0 ≤ perms.maxTransactionAmount)
    (hdest : ∀ dests dest, perms.allowedDestinations = some dests →
      params.destination = some dest → dest = "" ∨ dest ∈ dests)
    (hrate : RateLimiter.canExecute st.rateTransactions agentId
      perms.rateLimit now = true)
    (hvol : VolumeTracker.getVolume st.dailyVolume agentId now ≤
      perms.maxDailyVolume) :
    (validatePermissions st.permissions agentId params).allowed = true ∧
    (execute st agentId params now env).retrieveInvoked = true := by
  have hvp : validatePermissions st.permissions agentId params =
      ⟨true, none⟩ := by
    simp only [validatePermissions, hreg, hamt, Option.getD_none]
    rw [if_neg hlevel, if_neg (not_not_intro haction),
      if_neg (not_lt.mpr hcap)]
    cases hd : perms.allowedDestinations with
    | none => rfl
    | some dests =>
        cases hp : params.destination with
        | none => rfl
        | some dest =>
            by_cases hee : dest = ""
            · simp [hee]
            · rcases hdest dests dest hd hp with he | hm
              · exact absurd he hee
              · simp [hee, hm]
  refine ⟨by rw [hvp], ?_⟩
  simp only [execute, hvp, hreg, hamt, Option.getD_none]
  rw [if_neg (by simp)]
  rw [if_neg (by rw [hrate]; simp)]
  rw [if_neg (by rw [add_zero]; exact not_lt.mpr hvol)]
  obtain ⟨ro, bo, so, co⟩ := env
  cases ro <;> cases bo <;> cases so <;> cases co <;> rfl

/-- Witness for C9: with cap 0 and remaining allowance 0, the amount-less
request still validates and reaches key retrieval. -/
theorem absent_amount_passes_amount_checks_witness :
    (validatePermissions c9State.permissions "agent" c9Params).allowed =
      true ∧
    (execute c9State "agent" c9Params 0 okEnv).retrieveInvoked = true :=
  absent_amount_passes_amount_checks c9State "agent" c9Params 0 okEnv
    c9Perms (by decide) (by decide) (by decide) (by decide) (by decide)
    (fun dests dest hd hp => Option.noConfusion hd) (by decide) (by decide)

/-! ## Claim C3 -/

/-- C3 counterexample: for a read-only identity, with identical (empty)
rate and volume state on both sides, the facade `canExecute` answers
allowed while `execute` rejects with the read-only reason: the preview
skips the registration, permission-level and rate-limit checks and so
does not evaluate the same ordered checks as `execute`. -/
theorem canExecute_execute_disagree :
    (SecureAgenticWallet.canExecute c3Perms c3State "agent" c3Params
        0).allowed = true ∧
    (execute c3State "agent" c3Params 0 okEnv).result.success = false ∧
    (execute c3State "agent" c3Params 0 okEnv).result.error =
      some "Read-only agent cannot execute transactions" := by
  refine ⟨?_, by decide, by decide⟩
  norm_num [SecureAgenticWallet.canExecute, getRemainingAllowance,
    VolumeTracker.getVolume, c3Perms, c3State, c3Params]

/-- A passing validation implies the provided destination is empty or
inside the configured allowlist. -/
theorem validatePermissions_allowed_destination
    (permissions : List (String × AgentPermissions)) (agentId : String)
    (params : ActionParams) (perms : AgentPermissions) (dests : List String)
    (dest : String)
    (hreg : permissions.lookup agentId = some perms)
    (hds : perms.allowedDestinations = some dests)
    (hdp : params.destination = some dest)
    (hall : (validatePermissions permissions agentId params).allowed = true) :
    dest = "" ∨ dest ∈ dests := by
  simp only [validatePermissions, hreg, hds, hdp] at hall
  by_cases h1 : perms.level = PermissionLevel.READ_ONLY
  · simp [h1] at hall
  · rw [if_neg h1] at hall
    by_cases h2 : params.action ∉ perms.allowedActions
    · simp [h2] at hall
    · rw [if_neg h2] at hall
      by_cases h3 : params.amount.getD 0 > perms.maxTransactionAmount
      · simp [h3] at hall
      · rw [if_neg h3] at hall
        by_cases hee : dest = ""
        · exact Or.inl hee
        · rw [if_neg hee] at hall
          by_cases hin : dest ∉ dests
          · rw [if_pos hin] at hall
            exact absurd hall (by simp)
          · exact Or.inr (not_not.mp hin)

/-- C3 amended: the facade `canExecute` evaluates only the action
whitelist, the per-transaction cap, the remaining daily allowance and
the destination whitelist — it omits the registration, permission-level
and rate-limit checks of `execute` — so the preview and `execute` agree
in one direction only: whenever `canExecute` (evaluated against the
profile registered in the engine for the identity, over the same
rate/volume snapshot) answers not-allowed, `execute` rejects for policy
reasons without invoking key retrieval; the converse direction fails. -/
theorem canExecute_not_allowed_execute_rejects
    (st : EngineState) (agentId : String) (params : ActionParams) (now : Nat)
    (env : LedgerEnv) (perms : AgentPermissions)
    (hreg : st.permissions.lookup agentId = some perms)
    (h : (SecureAgenticWallet.canExecute perms st agentId params now).allowed
      = false) :
    (execute st agentId params now env).result.success = false ∧
    (execute st agentId params now env).retrieveInvoked = false := by
  simp only [SecureAgenticWallet.canExecute] at h
  by_cases ha : params.action ∉ perms.allowedActions
  · have hv := validatePermissions_action st.permissions agentId params perms
      hreg ha
    obtain ⟨h1, _, h3, _⟩ := execute_reject_of_invalid st agentId params now
      env hv
    exact ⟨h1, h3⟩
  · rw [if_neg ha] at h
    by_cases hb : params.amount.getD 0 > perms.maxTransactionAmount
    · have hv := validatePermissions_amount_cap st.permissions agentId params
        perms hreg hb
      obtain ⟨h1, _, h3, _⟩ := execute_reject_of_invalid st agentId params now
        env hv
      exact ⟨h1, h3⟩
    · rw [if_neg hb] at h
      by_cases hv : (validatePermissions st.permissions agentId
          params).allowed = false
      · obtain ⟨h1, _, h3, _⟩ := execute_reject_of_invalid st agentId params
          now env hv
        exact ⟨h1, h3⟩
      · by_cases hc : params.amount.getD 0 >
            getRemainingAllowance st agentId now
        · simp only [execute, hreg]
          rw [if_neg hv]
          by_cases hr : RateLimiter.canExecute st.rateTransactions agentId
              perms.rateLimit now = false
          · rw [if_pos hr]
            exact ⟨rfl, rfl⟩
          · rw [if_neg hr]
            have hvol : VolumeTracker.getVolume st.dailyVolume agentId now +
                params.amount.getD 0 > perms.maxDailyVolume := by
              have hge : getRemainingAllowance st agentId now ≥
                  perms.maxDailyVolume -
                    VolumeTracker.getVolume st.dailyVolume agentId now := by
                simp only [getRemainingAllowance, hreg]
                exact le_max_right _ _
              linarith
            rw [if_pos hvol]
            exact ⟨rfl, rfl⟩
        · rw [if_neg hc] at h
          exfalso
          have hall : (validatePermissions st.permissions agentId
              params).allowed = true := by
            revert hv
            cases (validatePermissions st.permissions agentId params).allowed
            · intro hv; exact absurd rfl hv
            · intro _; rfl
          cases hds : perms.allowedDestinations with
          | none => rw [hds] at h; simp at h
          | some dests =>
              cases hdp : params.destination with
              | none => rw [hds, hdp] at h; simp at h
              | some dest =>
                  rw [hds, hdp] at h
                  rcases validatePermissions_allowed_destination st.permissions
                    agentId params perms dests dest hreg hds hdp hall with
                    hee | hm
                  · simp [hee] at h
                  · by_cases hee : dest = ""
                    · simp [hee] at h
                    · simp [hee, hm] at h

/-- Witness for C3 (amended): an action outside the whitelist is refused
by the preview, and `execute` indeed rejects it without key retrieval. -/
theorem canExecute_not_allowed_execute_rejects_witness :
    (execute c3State "agent" c3wParams 0 okEnv).result.success = false ∧
    (execute c3State "agent" c3wParams 0 okEnv).retrieveInvoked = false :=
  canExecute_not_allowed_execute_rejects c3State "agent" c3wParams 0 okEnv
    c3Perms (by decide) (by decide)

/-! ## Claim C4 -/

/-- C4 counterexample: the request of 5 SOL exceeds the remaining daily
allowance (current volume 0 against a 1 SOL daily cap) and names a
destination outside the allowlist, yet the denial reason returned by
`validatePermissions` — and surfaced by `execute` — is the destination
one, not the volume one: the daily-volume comparison is not among the
checks of `validatePermissions` (it happens later in `execute`, after
the rate-limit check), so the claimed order does not hold. -/
theorem destination_denial_beats_volume :
    VolumeTracker.getVolume c4State.dailyVolume "agent" 0 = 0 ∧
    c4Perms.maxDailyVolume = 1 ∧
    ((5 : Rat) > 1) = True ∧
    c4Params.amount = some 5 ∧
    validatePermissions c4State.permissions "agent" c4Params =
      ⟨false, some "Destination not in whitelist"⟩ ∧
    (execute c4State "agent" c4Params 0 okEnv).result.error =
      some "Destination not in whitelist" := by decide

/-- C4 amended: `validatePermissions` evaluates, in this order and with
the first failure deciding the result: identity registered, level not
read-only, action whitelisted, amount at most `maxTransactionAmount`,
destination in the allowlist (when one is configured and a non-empty
destination is provided); the daily-volume allowance is not part of
`validatePermissions` but a separate later step of `execute`, performed
after the rate-limit check — so a request that exceeds the remaining
daily allowance and also names a non-allowlisted destination is denied
with the destination reason, whatever the volume state. -/
theorem validate_destination_decided_before_volume
    (st : EngineState) (agentId : String) (params : ActionParams) (now : Nat)
    (env : LedgerEnv) (perms : AgentPermissions) (dests : List String)
    (dest : String)
    (hreg : st.permissions.lookup agentId = some perms)
    (hlevel : perms.level ≠ PermissionLevel.READ_ONLY)
    (haction : params.action ∈ perms.allowedActions)
    (hamount : ¬ params.amount.getD 0 > perms.maxTransactionAmount)
    (hdests : perms.allowedDestinations = some dests)
    (hdest : params.destination = some dest)
    (hne : dest ≠ "") (hnotin : dest ∉ dests) :
    validatePermissions st.permissions agentId params =
      ⟨false, some "Destination not in whitelist"⟩ ∧
    (execute st agentId params now env).result.error =
      some "Destination not in whitelist" ∧
    (execute st agentId params now env).retrieveInvoked = false := by
  have hv := validatePermissions_destination st.permissions agentId params
    perms dests dest hreg hlevel haction hamount hdests hdest hne hnotin
  have hfalse : (validatePermissions st.permissions agentId params).allowed =
      false := by rw [hv]
  obtain ⟨_, h2, h3, _⟩ := execute_reject_of_invalid st agentId params now
    env hfalse
  refine ⟨hv, ?_, h3⟩
  rw [h2, hv]

/-- Witness for C4 (amended): the concrete over-allowance, bad-destination
request of the counterexample. -/
theorem validate_destination_decided_before_volume_witness :
    validatePermissions c4State.permissions "agent" c4Params =
      ⟨false, some "Destination not in whitelist"⟩ ∧
    (execute c4State "agent" c4Params 3 okEnv).result.error =
      some "Destination not in whitelist" ∧
    (execute c4State "agent" c4Params 3 okEnv).retrieveInvoked = false :=
  validate_destination_decided_before_volume c4State "agent" c4Params 3 okEnv
    c4Perms ["good"] "bad" (by decide) (by decide) (by decide) (by decide)
    (by decide) (by decide) (by decide) (by decide)

/-! ## Claim C5 -/

/-- C5 counterexample: the tracker window is not a rolling 24-hour span
anchored at the identity's first transaction.  A window opened at
86,399,000 ms (UTC day 0, 23:59:59) is visible at its opening instant,
yet 2,000 ms later — far less than 24 hours — `getVolume` already
returns 0 and `addVolume` starts a fresh window, because the stored UTC
calendar date (day 0) differs from the current one (day 1). -/
theorem volume_window_not_rolling_24h :
    (86401000 - 86399000 : Nat) ≤ 24 * 60 * 60 * 1000 ∧
    VolumeTracker.getVolume
        (VolumeTracker.addVolume [] "agent" 5 86399000) "agent" 86399000 =
      5 ∧
    VolumeTracker.getVolume
        (VolumeTracker.addVolume [] "agent" 5 86399000) "agent" 86401000 =
      0 ∧
    VolumeTracker.addVolume
        (VolumeTracker.addVolume [] "agent" 5 86399000) "agent" 3 86401000 =
      [("agent", ⟨3, 1⟩)] := by decide

/-- C5 amended: the tracker keeps one accumulator per identity keyed to
the current UTC calendar date (the ISO date string), not a rolling
24-hour window anchored to the identity's first transaction: `addVolume`
accumulates onto the volume visible at write time, a `getVolume` read on
the same UTC calendar day returns the accumulated amount, and a read on
any other UTC calendar day returns 0 — however few or many hours
separate the two instants. -/
theorem volume_tracker_calendar_day
    (vol : List (String × VolumeTracker.VolumeRecord)) (agentId : String)
    (amount : Rat) (now now2 : Nat) :
    (VolumeTracker.utcDay now2 = VolumeTracker.utcDay now →
      VolumeTracker.getVolume
          (VolumeTracker.addVolume vol agentId amount now) agentId now2 =
        VolumeTracker.getVolume vol agentId now + amount) ∧
    (VolumeTracker.utcDay now2 ≠ VolumeTracker.utcDay now →
      VolumeTracker.getVolume
          (VolumeTracker.addVolume vol agentId amount now) agentId now2 =
        0) := by
  cases hl : vol.lookup agentId with
  | none =>
      simp only [VolumeTracker.addVolume, VolumeTracker.getVolume, hl,
        lookup_mapSet_self]
      constructor
      · intro he
        rw [if_neg (not_not_intro he.symm), zero_add]
      · intro hne
        rw [if_pos (Ne.symm hne)]
  | some record =>
      simp only [VolumeTracker.addVolume, VolumeTracker.getVolume, hl]
      by_cases hd : record.date ≠ VolumeTracker.utcDay now
      · rw [if_pos hd]
        simp only [lookup_mapSet_self]
        constructor
        · intro he
          rw [if_neg (not_not_intro he.symm), if_pos hd, zero_add]
        · intro hne
          rw [if_pos (Ne.symm hne)]
      · rw [if_neg hd]
        have hdate : record.date = VolumeTracker.utcDay now := not_not.mp hd
        simp only [lookup_mapSet_self]
        constructor
        · intro he
          rw [if_neg (not_not_intro (hdate.trans he.symm)), if_neg hd]
        · intro hne
          rw [if_pos (hdate.trans_ne (Ne.symm hne))]

/-- Witness for C5 (amended): a same-day read sees the accumulated
amount; a next-day read, 86,399,995 ms later, sees 0. -/
theorem volume_tracker_calendar_day_witness :
    VolumeTracker.getVolume
        (VolumeTracker.addVolume [] "agent" 5 10) "agent" 20 =
      VolumeTracker.getVolume [] "agent" 10 + 5 ∧
    VolumeTracker.getVolume
        (VolumeTracker.addVolume [] "agent" 5 10) "agent" 86400005 = 0 :=
  ⟨(volume_tracker_calendar_day [] "agent" 5 10 20).1 (by decide),
    (volume_tracker_calendar_day [] "agent" 5 10 86400005).2 (by decide)⟩

/-! ## Claim C8 -/

/-- C8: round trip — for every identity not already present in the store,
every secret key, public key and password (and every salt, IV, metadata
and time), `storeKey` followed by `retrieveKey` with the same password
succeeds and yields a secret key byte-identical to the stored one. -/
theorem storeKey_retrieveKey_roundtrip
    (files : SecureKeyStore.Files) (walletId publicKey password : String)
    (secretKey salt iv : List SecureKeyStore.Byte)
    (metadata : Option (List (String × String))) (now : Nat)
    (h : SecureKeyStore.hasWallet files walletId = false) :
    SecureKeyStore.retrieveKey
        (SecureKeyStore.storeKey files walletId secretKey publicKey password
          metadata salt iv now).files walletId password =
      Except.ok ⟨secretKey, publicKey⟩ :=
  SecureKeyStore.retrieve_after_store files walletId publicKey password
    secretKey salt iv metadata now

/-- Witness for C8: a concrete empty store, identity, key and password. -/
theorem storeKey_retrieveKey_roundtrip_witness :
    SecureKeyStore.hasWallet [] "agent" = false ∧
    SecureKeyStore.retrieveKey
        (SecureKeyStore.storeKey [] "agent" [1, 2, 3] "pk" "pw" none [7] [9]
          5).files "agent" "pw" =
      Except.ok ⟨[1, 2, 3], "pk"⟩ :=
  ⟨by decide,
    storeKey_retrieveKey_roundtrip [] "agent" "pk" "pw" [1, 2, 3] [7] [9]
      none 5 (by decide)⟩

/-! ## Claim C10 -/

/-- C10: custody isolation is keyed by the sanitized id, not the raw id.
For distinct wallet ids whose sanitizations coincide, the file path is
one and the same, `hasWallet`, `getWalletInfo` and `deleteWallet` agree,
`storeKey` under either id produces the same store, and after `storeKey`
under the first id, `hasWallet` holds for the second id and `retrieveKey`
under the second id with the same password returns the first id's secret
key. -/
theorem sanitized_id_collision
    (files : SecureKeyStore.Files) (id1 id2 publicKey password : String)
    (secretKey salt iv : List SecureKeyStore.Byte)
    (metadata : Option (List (String × String))) (now : Nat)
    (hne : id1 ≠ id2)
    (hsan : SecureKeyStore.sanitizeId id1 = SecureKeyStore.sanitizeId id2) :
    SecureKeyStore.getKeyFilePath id1 = SecureKeyStore.getKeyFilePath id2 ∧
    SecureKeyStore.hasWallet files id1 = SecureKeyStore.hasWallet files id2 ∧
    SecureKeyStore.getWalletInfo files id1 =
      SecureKeyStore.getWalletInfo files id2 ∧
    (SecureKeyStore.deleteWallet files id1).1 =
        (SecureKeyStore.deleteWallet files id2).1 ∧
      (SecureKeyStore.deleteWallet files id1).2 =
        (SecureKeyStore.deleteWallet files id2).2 ∧
    (SecureKeyStore.storeKey files id1 secretKey publicKey password metadata
        salt iv now).files =
      (SecureKeyStore.storeKey files id2 secretKey publicKey password metadata
        salt iv now).files ∧
    SecureKeyStore.hasWallet
        (SecureKeyStore.storeKey files id1 secretKey publicKey password
          metadata salt iv now).files id2 = true ∧
    SecureKeyStore.retrieveKey
        (SecureKeyStore.storeKey files id1 secretKey publicKey password
          metadata salt iv now).files id2 password =
      Except.ok ⟨secretKey, publicKey⟩ := by
  have hpath : SecureKeyStore.getKeyFilePath id1 =
      SecureKeyStore.getKeyFilePath id2 := by
    unfold SecureKeyStore.getKeyFilePath
    rw [hsan]
  refine ⟨hpath, ?_, ?_, ?_, ?_, ?_, ?_, ?_⟩
  · unfold SecureKeyStore.hasWallet
    rw [hpath]
  · unfold SecureKeyStore.getWalletInfo
    rw [hpath]
  · unfold SecureKeyStore.deleteWallet
    rw [hpath]
  · unfold SecureKeyStore.deleteWallet
    rw [hpath]
  · unfold SecureKeyStore.storeKey
    rw [hpath]
  · unfold SecureKeyStore.hasWallet SecureKeyStore.storeKey
    rw [hpath]
    simp [lookup_mapSet_self]
  · have := SecureKeyStore.retrieve_after_store files id2 publicKey password
      secretKey salt iv metadata now
    unfold SecureKeyStore.storeKey at this ⊢
    rw [hpath]
    exact this

/-- Witness for C10: the distinct ids `a.b` and `a_b` sanitize alike. -/
theorem sanitized_id_collision_witness :
    ("a.b" : String) ≠ "a_b" ∧
    SecureKeyStore.sanitizeId "a.b" = SecureKeyStore.sanitizeId "a_b" ∧
    SecureKeyStore.hasWallet
        (SecureKeyStore.storeKey [] "a.b" [4, 2] "pk" "pw" none [7] [9]
          5).files "a_b" = true ∧
    SecureKeyStore.retrieveKey
        (SecureKeyStore.storeKey [] "a.b" [4, 2] "pk" "pw" none [7] [9]
          5).files "a_b" "pw" =
      Except.ok ⟨[4, 2], "pk"⟩ := by
  have h := sanitized_id_collision [] "a.b" "a_b" "pk" "pw" [4, 2] [7] [9]
    none 5 (by decide) (by decide)
  exact ⟨by decide, by decide, h.2.2.2.2.2.2.1, h.2.2.2.2.2.2.2⟩

/-! ## Claim C6 -/

/-- C6 counterexample: `storeKey` on an identity already present in the
store does not fail with `AlreadyExists` — the source has no existence
check and no error path at all — and it does not leave the persisted
record unchanged: the write replaces it (here the stored public key
changes from `pk1` to `pk2`). -/
theorem storeKey_overwrites_existing :
    SecureKeyStore.hasWallet c6Files "agent" = true ∧
    ((SecureKeyStore.storeKey c6Files "agent" [1] "pk2" "pw" none [] []
          5).files.lookup "agent.encrypted.json").map
        (fun d => d.publicKey) = some "pk2" ∧
    (SecureKeyStore.storeKey c6Files "agent" [1] "pk2" "pw" none [] []
        5).files.lookup "agent.encrypted.json" ≠ some c6Existing := by
  decide

/-- C6 amended: `storeKey` itself performs no existence check and
unconditionally overwrites the record stored under the identity's file
name (after the call, the record under that name carries the new public
key and creation time); the `AlreadyExists` protection lives one layer
up, in `SecureAgenticWallet.create`, which fails with `Wallet already
exists` — storing nothing — whenever `hasWallet` holds. -/
theorem storeKey_overwrite_create_guard
    (files : SecureKeyStore.Files) (agentId name publicKey password : String)
    (secretKey salt iv : List SecureKeyStore.Byte)
    (metadata : Option (List (String × String))) (now : Nat)
    (h : SecureKeyStore.hasWallet files agentId = true) :
    ((SecureKeyStore.storeKey files agentId secretKey publicKey password
          metadata salt iv now).files.lookup
        (SecureKeyStore.getKeyFilePath agentId)).map
        (fun d => (d.publicKey, d.createdAt)) = some (publicKey, now) ∧
    SecureAgenticWallet.create files agentId name secretKey publicKey
        password salt iv now =
      Except.error ("Wallet already exists: " ++ agentId) := by
  constructor
  · unfold SecureKeyStore.storeKey
    simp [lookup_mapSet_self]
  · unfold SecureAgenticWallet.create
    rw [if_pos h]

/-- Witness for C6 (amended): the concrete one-wallet store of the
counterexample. -/
theorem storeKey_overwrite_create_guard_witness :
    SecureKeyStore.hasWallet c6Files "agent" = true ∧
    SecureAgenticWallet.create c6Files "agent" "n" [1] "pk2" "pw" [] [] 5 =
      Except.error "Wallet already exists: agent" :=
  ⟨by decide,
    (storeKey_overwrite_create_guard c6Files "agent" "n" "pk2" "pw" [1] [] []
      none 5 (by decide)).2⟩

/-! ## Claim C7 -/

/-- C7 counterexample: after `storeKey` returns, the caller-supplied
plaintext buffer still holds its original bytes `[1, 2, 3]` — only the
internal copy made by `Buffer.from(secretKey)` and the derived key are
zeroed, the caller's array is not. -/
theorem caller_buffer_not_zeroed :
    (SecureKeyStore.storeKey [] "agent" [1, 2, 3] "pk" "pw" none [7] [9]
        0).callerBufferAfter = [1, 2, 3] ∧
    ([1, 2, 3] : List SecureKeyStore.Byte) ≠ List.replicate 3 0 := by
  decide

/-- C7 amended: after `storeKey` returns, the internal plaintext copy
(`secretKeyBuffer = Buffer.from(secretKey)`) and the derived encryption
key are zeroed, while the caller-supplied buffer keeps exactly its
original byte values (its zeroing is left to the caller —
`SecureAgenticWallet.create` does it separately after storing). -/
theorem storeKey_zeroes_copy_and_derived_key
    (files : SecureKeyStore.Files) (walletId publicKey password : String)
    (secretKey salt iv : List SecureKeyStore.Byte)
    (metadata : Option (List (String × String))) (now : Nat) :
    (SecureKeyStore.storeKey files walletId secretKey publicKey password
        metadata salt iv now).secretKeyBufferAfter =
      List.replicate secretKey.length 0 ∧
    (SecureKeyStore.storeKey files walletId secretKey publicKey password
        metadata salt iv now).derivedKeyAfter =
      List.replicate (SecureKeyStore.deriveKey password salt).length 0 ∧
    (SecureKeyStore.storeKey files walletId secretKey publicKey password
        metadata salt iv now).callerBufferAfter = secretKey :=
  ⟨rfl, rfl, rfl⟩

end SolWallet
